import Mathlib

/-!
Shallow embedding of the hackcode backend (Convex mutations and queries over
the tables declared in the schema), together with proofs about its
contest, problem, testcase and user operations.

Conventions of the embedding:
* Convex document ids are modelled as natural numbers; the string keys
  (contestId, problemId, testcaseId, userId) stay strings.
* JS timestamps (`Date.now()` values) are modelled as integers; a
  contest's `maxSize` is a rational, since the schema types it as a
  plain JS number (float64) with no integrality check and the values
  relevant to the capacity checks (such as 0.5 or 1.5) are exactly
  representable.
* A mutation handler is a pure function from its inputs and the relevant
  documents to `Except String <new documents>`; a thrown `ConvexError`
  becomes `.error msg`.  Convex rolls a mutation back when the handler
  throws, so the pre-state is unchanged exactly when the result is
  `.error`; the `...State` wrappers make that rollback explicit by
  returning the pre-state on error.
* Nondeterministic inputs of the source (`Date.now()`, `Math.random()`,
  freshly generated document ids) are passed in as explicit parameters.
-/

namespace HackCode

/-- User roles, from the schema (`role: USER | ADMIN`). -/
inductive Role where
  | USER
  | ADMIN
deriving DecidableEq

/-- A `users` document (the fields the operations below read or write). -/
structure User where
  id : ℕ
  userId : String
  email : String
  name : String
  username : String
  isVerified : Bool
  role : Role
  createdProblems : List ℕ
  solvedProblems : List ℕ
  createdContests : List ℕ
  participatedContests : List ℕ
deriving DecidableEq

/-- A `testcases` document. -/
structure Testcase where
  id : ℕ
  testcaseId : String
  input : String
  output : String
  isPublic : Bool
  problemId : ℕ
deriving DecidableEq

/-- A `problems` document (the fields the testcase queries read). -/
structure Problem where
  id : ℕ
  problemId : String
  creatorId : ℕ
  testcases : List ℕ
deriving DecidableEq

/-- A `contests` document. -/
structure Contest where
  id : ℕ
  contestId : String
  name : String
  description : String
  creatorId : ℕ
  startTime : ℤ
  endTime : ℤ
  isPublic : Bool
  maxSize : ℚ
  problems : List ℕ
  users : List ℕ
  updatedAt : ℤ
deriving DecidableEq

/-- A `contestProblems` document (the fields deleteContest touches). -/
structure ContestProblem where
  id : ℕ
  contestId : ℕ
deriving DecidableEq

/-- A `contestSubmissions` document (the field deleteContest reads). -/
structure ContestSubmission where
  id : ℕ
  contestId : ℕ
deriving DecidableEq

/-! ## Contest phase (contests.ts, listContests lines 163-165 and
getContestDetails lines 211-213)

Both handlers compute the status with the same three statements:
`let status = "upcoming"`, then overwrite with `"ongoing"` when
`now >= startTime && now < endTime`, then overwrite with `"ended"` when
`now >= endTime`.  The `contests` table stores no status field, so the
value is recomputed from `startTime`, `endTime` and `Date.now()` on every
read. -/

/-- The status cascade exactly as written in the two handlers. -/
def contestStatus (startTime endTime now : ℤ) : String :=
  let status := "upcoming"
  let status := if now ≥ startTime ∧ now < endTime then "ongoing" else status
  let status := if now ≥ endTime then "ended" else status
  status

/-- The `upcoming` filter of listContests (contests.ts lines 115-123). -/
def upcomingFilter (c : Contest) (now : ℤ) : Bool :=
  c.isPublic && decide (c.startTime > now)

/-- The `ongoing` filter of listContests (contests.ts lines 125-134). -/
def ongoingFilter (c : Contest) (now : ℤ) : Bool :=
  c.isPublic && decide (c.startTime ≤ now) && decide (c.endTime > now)

/-- The `ended` filter of listContests (contests.ts lines 136-144). -/
def endedFilter (c : Contest) (now : ℤ) : Bool :=
  c.isPublic && decide (c.endTime < now)

/-- The status cascade written in the handlers coincides with the
if-then-else chain "ended / ongoing / upcoming". -/
theorem contestStatus_eq_cascade (s e now : ℤ) :
    contestStatus s e now =
      (if now ≥ e then "ended" else if now ≥ s then "ongoing" else "upcoming") := by
  unfold contestStatus
  by_cases he : now ≥ e
  · simp [he]
  · by_cases hs : now ≥ s
    · have : now < e := lt_of_not_ge he
      simp [he, hs, this]
    · have : ¬ (now ≥ s ∧ now < e) := fun h => hs h.1
      simp [he, hs, this]

/-- C2: the status returned by listContests and getContestDetails is the
pure cascade "ended if now ≥ endTime, else ongoing if now ≥ startTime,
else upcoming" over `{startTime, endTime, currentTime}` alone.  It is a
function of those three inputs, so recomputation yields the same value;
the `Contest` record carries no status field that could cache it. -/
theorem contestStatus_pure_derived (s e now : ℤ) :
    contestStatus s e now =
      (if now ≥ e then "ended" else if now ≥ s then "ongoing" else "upcoming") :=
  contestStatus_eq_cascade s e now

/-- A concrete public contest sitting exactly at its end instant:
startTime 0, endTime 5, observed at now = 5. -/
def boundaryContest : Contest :=
  { id := 1, contestId := "contest_b", name := "b", description := ""
    creatorId := 0, startTime := 0, endTime := 5, isPublic := true
    maxSize := 10, problems := [], users := [], updatedAt := 0 }

/-- C3 counterexample: at `now = endTime` a public contest matches none of
the three listContests phase filters (the `ended` filter tests
`endTime < now`, strictly), although its computed status at that very
instant is "ended" (the status cascade tests `now >= endTime`).  So the
three filters are not exhaustive, refuting the claim. -/
theorem contestFilters_gap_at_endTime :
    upcomingFilter boundaryContest 5 = false ∧
    ongoingFilter boundaryContest 5 = false ∧
    endedFilter boundaryContest 5 = false ∧
    contestStatus boundaryContest.startTime boundaryContest.endTime 5 = "ended" := by
  refine ⟨rfl, rfl, rfl, ?_⟩
  rfl

/-- C3 amended: for a public contest with startTime < endTime, at every
instant other than the exact endTime the three listContests filters are
exhaustive and mutually exclusive (exactly one matches), and the matching
filter agrees with the status computed for the contest at the same time.
(At now = endTime the contest matches no filter; see the counterexample.) -/
theorem contestFilters_partition (c : Contest) (now : ℤ)
    (hpub : c.isPublic = true) (hlt : c.startTime < c.endTime)
    (hne : now ≠ c.endTime) :
    ((upcomingFilter c now).toNat + (ongoingFilter c now).toNat
        + (endedFilter c now).toNat = 1) ∧
    (upcomingFilter c now = true →
        contestStatus c.startTime c.endTime now = "upcoming") ∧
    (ongoingFilter c now = true →
        contestStatus c.startTime c.endTime now = "ongoing") ∧
    (endedFilter c now = true →
        contestStatus c.startTime c.endTime now = "ended") := by
  have hst := contestStatus_eq_cascade c.startTime c.endTime now
  rcases lt_trichotomy now c.startTime with h1 | h1 | h1
  · have hu : upcomingFilter c now = true := by
      simp [upcomingFilter, hpub]; omega
    have ho : ongoingFilter c now = false := by
      simp [ongoingFilter, hpub]; omega
    have he : endedFilter c now = false := by
      simp [endedFilter, hpub]; omega
    refine ⟨by simp [hu, ho, he], fun _ => ?_, fun h => by simp [ho] at h,
      fun h => by simp [he] at h⟩
    rw [hst]
    have : ¬ now ≥ c.endTime := by omega
    have h2 : ¬ now ≥ c.startTime := by omega
    simp [this, h2]
  · have hu : upcomingFilter c now = false := by
      simp [upcomingFilter, hpub]; omega
    have ho : ongoingFilter c now = true := by
      simp [ongoingFilter, hpub]; omega
    have he : endedFilter c now = false := by
      simp [endedFilter, hpub]; omega
    refine ⟨by simp [hu, ho, he], fun h => by simp [hu] at h, fun _ => ?_,
      fun h => by simp [he] at h⟩
    rw [hst]
    have h2 : ¬ now ≥ c.endTime := by omega
    have h3 : now ≥ c.startTime := by omega
    simp [h2, h3]
  · -- now > startTime: either strictly inside the window, or past the end
    rcases lt_trichotomy now c.endTime with h2 | h2 | h2
    · have hu : upcomingFilter c now = false := by
        simp [upcomingFilter, hpub]; omega
      have ho : ongoingFilter c now = true := by
        simp [ongoingFilter, hpub]; omega
      have he : endedFilter c now = false := by
        simp [endedFilter, hpub]; omega
      refine ⟨by simp [hu, ho, he], fun h => by simp [hu] at h, fun _ => ?_,
        fun h => by simp [he] at h⟩
      rw [hst]
      have h3 : ¬ now ≥ c.endTime := by omega
      have h4 : now ≥ c.startTime := by omega
      simp [h3, h4]
    · exact absurd h2 hne
    · have hu : upcomingFilter c now = false := by
        simp [upcomingFilter, hpub]; omega
      have ho : ongoingFilter c now = false := by
        simp [ongoingFilter, hpub]; omega
      have he : endedFilter c now = true := by
        simp [endedFilter, hpub]; omega
      refine ⟨by simp [hu, ho, he], fun h => by simp [hu] at h,
        fun h => by simp [ho] at h, fun _ => ?_⟩
      rw [hst]
      have h3 : now ≥ c.endTime := by omega
      simp [h3]

/-- Witness for the amended C3 theorem at a concrete contest: boundary
contest observed at now = 3 (strictly inside its window). -/
theorem contestFilters_partition_witness :
    boundaryContest.isPublic = true ∧
    boundaryContest.startTime < boundaryContest.endTime ∧
    (3 : ℤ) ≠ boundaryContest.endTime ∧
    ((upcomingFilter boundaryContest 3).toNat
        + (ongoingFilter boundaryContest 3).toNat
        + (endedFilter boundaryContest 3).toNat = 1) :=
  ⟨rfl, by decide, by decide,
    (contestFilters_partition boundaryContest 3 rfl (by decide) (by decide)).1⟩

/-! ## Testcase visibility (testcases file, getProblemTestCases lines
58-94; problems file, getProblem lines 327-357)

getProblemTestCases takes an optional boolean argument `publicOnly`.  The
handler computes `canSeeAll` (creator-or-admin) only when `publicOnly` is
falsy, then keeps a testcase when
`canSeeAll || args.publicOnly === false || testcase.isPublic`.
Note the strict-equality middle disjunct: it is true exactly when the
caller passed `publicOnly: false` explicitly, and it bypasses the
`canSeeAll` privilege check entirely in that case.

getProblem keeps only the testcases with `isPublic` true. -/

/-- Resolve a list of testcase document ids against the testcases table,
as the loops over `problem.testcases` with `ctx.db.get` do. -/
def lookupTestcases (tcdb : List Testcase) (ids : List ℕ) : List Testcase :=
  ids.filterMap fun tid => tcdb.find? fun t => t.id = tid

/-- getProblemTestCases: `user` is the principal requireAuth supplies
(the handler calls requireAuth whenever `publicOnly` is falsy). -/
def getProblemTestCases (tcdb : List Testcase) (problem : Problem)
    (user : User) (publicOnly : Option Bool) : List Testcase :=
  let canSeeAll : Bool :=
    if publicOnly = some true then false
    else decide (problem.creatorId = user.id) || decide (user.role = Role.ADMIN)
  (lookupTestcases tcdb problem.testcases).filter fun t =>
    canSeeAll || decide (publicOnly = some false) || t.isPublic

/-- The testcase list returned by getProblem: public testcases only. -/
def getProblemTestcaseView (tcdb : List Testcase) (problem : Problem) :
    List Testcase :=
  (lookupTestcases tcdb problem.testcases).filter fun t => t.isPublic

/-- A private testcase of a problem owned by user 1. -/
def privateTc : Testcase :=
  { id := 11, testcaseId := "TC_11", input := "in", output := "secret"
    isPublic := false, problemId := 21 }

/-- The problem owning `privateTc`, created by user 1. -/
def problemWithPrivateTc : Problem :=
  { id := 21, problemId := "PROB_21", creatorId := 1, testcases := [11] }

/-- An ordinary authenticated user: role USER, not the creator. -/
def plainUser : User :=
  { id := 2, userId := "user_2", email := "e", name := "n", username := "u"
    isVerified := false, role := Role.USER, createdProblems := []
    solvedProblems := [], createdContests := [], participatedContests := [] }

/-- C1: evaluation at the failing input.  An authenticated caller who is
neither the creator of the problem nor an ADMIN, passing
`publicOnly = false`, receives the problem's private testcase from
getProblemTestCases: the `args.publicOnly === false` disjunct in the
visibility condition bypasses the creator-or-admin check, contradicting
the claim (and the function's own "admin/creator view" comment).
getProblem itself correctly returns only public testcases. -/
theorem getProblemTestCases_leaks_private :
    privateTc.isPublic = false ∧
    problemWithPrivateTc.creatorId ≠ plainUser.id ∧
    plainUser.role ≠ Role.ADMIN ∧
    getProblemTestCases [privateTc] problemWithPrivateTc plainUser (some false)
      = [privateTc] ∧
    getProblemTestcaseView [privateTc] problemWithPrivateTc = [] := by
  refine ⟨rfl, by decide, by decide, ?_, ?_⟩ <;> rfl

/-! ## Contest mutations (contests.ts)

Each mutation is embedded as a pure function on the documents it touches.
`now` stands for `Date.now()`; `cidStr` and `newDocId` stand for the
generated contest key and the id Convex assigns on insert. -/

/-- Arguments of createContest (contests.ts lines 7-16). -/
structure CreateContestArgs where
  name : String
  description : String
  startTime : ℤ
  endTime : ℤ
  isPublic : Bool
  maxSize : ℚ
  addSelf : Bool
deriving DecidableEq

/-- createContest (contests.ts lines 17-61): validates, inserts the
contest, then patches the creator's contest lists. -/
def createContest (user : User) (args : CreateContestArgs) (now : ℤ)
    (cidStr : String) (newDocId : ℕ) : Except String (Contest × User) :=
  if args.startTime < now then
    .error "Contest startTime cannot be in the past"
  else if args.endTime ≤ args.startTime then
    .error "Contest end time must be after start time"
  else if args.maxSize ≤ 0 then
    .error "Max size must be positive"
  else
    let contest : Contest :=
      { id := newDocId, contestId := cidStr, name := args.name.trim
        description := args.description.trim, creatorId := user.id
        startTime := args.startTime, endTime := args.endTime
        isPublic := args.isPublic, maxSize := args.maxSize, problems := []
        users := if args.addSelf then [user.id] else [], updatedAt := now }
    let user' : User :=
      { user with
        createdContests := user.createdContests ++ [newDocId]
        participatedContests :=
          if args.addSelf then
            (if newDocId ∈ user.participatedContests then
              user.participatedContests
            else user.participatedContests ++ [newDocId])
          else user.participatedContests }
    .ok (contest, user')

/-- Post-state of a createContest attempt: on error Convex rolls the
mutation back, so no contest exists and the user document is unchanged. -/
def createContestState (user : User) (args : CreateContestArgs) (now : ℤ)
    (cidStr : String) (newDocId : ℕ) : Option Contest × User :=
  match createContest user args now cidStr newDocId with
  | .ok (c, u') => (some c, u')
  | .error _ => (none, user)

/-- joinContest (contests.ts lines 403-453): visibility, duplicate,
capacity and end-time checks, then appends the caller to the contest's
users and the contest to the caller's participatedContests. -/
def joinContest (user : User) (contest : Contest) (now : ℤ) :
    Except String (Contest × User) :=
  if !contest.isPublic then
    .error "Contest is private"
  else if contest.users.contains user.id then
    .error "Already joined this contest"
  else if (contest.users.length : ℚ) ≥ contest.maxSize then
    .error "Contest is full"
  else if now > contest.endTime then
    .error "Contest has ended"
  else
    .ok ({ contest with users := contest.users ++ [user.id], updatedAt := now },
      { user with participatedContests := user.participatedContests ++ [contest.id] })

/-- leaveContest (contests.ts lines 456-496): membership and start-time
checks, then removes the caller from the contest's users and the contest
from the caller's participatedContests. -/
def leaveContest (user : User) (contest : Contest) (now : ℤ) :
    Except String (Contest × User) :=
  if !contest.users.contains user.id then
    .error "Not participating in this contest"
  else if now ≥ contest.startTime then
    .error "Cannot leave contest after it has started"
  else
    let contest' : Contest :=
      { contest with
        users := contest.users.filter (fun i => i ≠ user.id)
        updatedAt := now }
    let user' : User :=
      { user with
        participatedContests :=
          user.participatedContests.filter (fun i => i ≠ contest.id) }
    .ok (contest', user')

/-- Post-state of a leaveContest attempt (rollback on error). -/
def leaveContestState (user : User) (contest : Contest) (now : ℤ) :
    Contest × User :=
  match leaveContest user contest now with
  | .ok st => st
  | .error _ => (contest, user)

/-- Arguments of updateContest (contests.ts lines 258-267); a `none`
field models an argument the caller did not pass. -/
structure UpdateContestArgs where
  name : Option String
  description : Option String
  startTime : Option ℤ
  endTime : Option ℤ
  isPublic : Option Bool
  maxSize : Option ℚ
deriving DecidableEq

/-- updateContest (contests.ts lines 268-333): creator-or-admin check,
started-contest restriction, time-window and maxSize validation, then a
patch of exactly the provided fields. -/
def updateContest (caller : User) (contest : Contest)
    (args : UpdateContestArgs) (now : ℤ) : Except String Contest :=
  if ¬ (contest.creatorId = caller.id ∨ caller.role = Role.ADMIN) then
    .error "Only contest creator or admin can update contest"
  else if now ≥ contest.startTime ∧
      (args.name.isSome ∨ args.startTime.isSome ∨ args.endTime.isSome ∨
        args.isPublic.isSome ∨ args.maxSize.isSome) then
    .error "Can only update description for contests that have started"
  else if (args.startTime.isSome ∨ args.endTime.isSome) ∧
      ¬ now ≥ contest.startTime ∧
      args.startTime.getD contest.startTime < now then
    .error "Contest start time cannot be in the past"
  else if (args.startTime.isSome ∨ args.endTime.isSome) ∧
      args.endTime.getD contest.endTime ≤ args.startTime.getD contest.startTime then
    .error "Contest end time must be after start time"
  else if args.maxSize.isSome ∧ args.maxSize.getD 0 ≤ 0 then
    .error "Max size must be positive"
  else if args.maxSize.isSome ∧
      args.maxSize.getD 0 < (contest.users.length : ℚ) then
    .error "Max size cannot be less than current participant count"
  else
    .ok { contest with
      name := (args.name.map String.trim).getD contest.name
      description := (args.description.map String.trim).getD contest.description
      startTime := args.startTime.getD contest.startTime
      endTime := args.endTime.getD contest.endTime
      isPublic := args.isPublic.getD contest.isPublic
      maxSize := args.maxSize.getD contest.maxSize
      updatedAt := now }

/-- C5: once a contest has started (now ≥ startTime), leaveContest always
throws — either "Not participating in this contest" or "Cannot leave
contest after it has started" — and the post-state keeps the contest's
users array and the caller's participatedContests array unchanged, so a
user is never removed from a started contest's participant set. -/
theorem leaveContest_rejects_after_start (user : User) (contest : Contest)
    (now : ℤ) (h : now ≥ contest.startTime) :
    (∃ msg, leaveContest user contest now = Except.error msg) ∧
    leaveContestState user contest now = (contest, user) := by
  have h' : contest.startTime ≤ now := h
  by_cases hm : user.id ∈ contest.users
  · refine ⟨⟨"Cannot leave contest after it has started", ?_⟩, ?_⟩ <;>
      simp [leaveContest, leaveContestState, hm, h']
  · refine ⟨⟨"Not participating in this contest", ?_⟩, ?_⟩ <;>
      simp [leaveContest, leaveContestState, hm]

/-- A participant of `boundaryContest`-like data, used as concrete input. -/
def memberUser : User :=
  { id := 5, userId := "user_5", email := "e", name := "n", username := "u"
    isVerified := false, role := Role.USER, createdProblems := []
    solvedProblems := [], createdContests := [], participatedContests := [7] }

/-- A started contest (startTime 0) containing `memberUser`. -/
def startedContest : Contest :=
  { id := 7, contestId := "contest_7", name := "s", description := ""
    creatorId := 1, startTime := 0, endTime := 100, isPublic := true
    maxSize := 10, problems := [], users := [5], updatedAt := 0 }

/-- Witness for C5 at a concrete input: `memberUser` tries to leave
`startedContest` at now = 50 ≥ startTime = 0. -/
theorem leaveContest_rejects_after_start_witness :
    (∃ msg, leaveContest memberUser startedContest 50 = Except.error msg) ∧
    leaveContestState memberUser startedContest 50 = (startedContest, memberUser) :=
  leaveContest_rejects_after_start memberUser startedContest 50 (by decide)

/-- C7: a createContest call whose arguments fail validation — startTime
in the past, endTime ≤ startTime, or maxSize ≤ 0 — throws before any
write: no contest document comes into existence and the caller's user
document is unchanged. -/
theorem createContest_validation_creates_nothing (user : User)
    (args : CreateContestArgs) (now : ℤ) (cidStr : String) (newDocId : ℕ)
    (h : args.startTime < now ∨ args.endTime ≤ args.startTime ∨ args.maxSize ≤ 0) :
    (∃ msg, createContest user args now cidStr newDocId = Except.error msg) ∧
    createContestState user args now cidStr newDocId = (none, user) := by
  by_cases h1 : args.startTime < now
  · refine ⟨⟨"Contest startTime cannot be in the past", ?_⟩, ?_⟩ <;>
      simp [createContest, createContestState, h1]
  · by_cases h2 : args.endTime ≤ args.startTime
    · refine ⟨⟨"Contest end time must be after start time", ?_⟩, ?_⟩ <;>
        simp [createContest, createContestState, h1, h2]
    · have h3 : args.maxSize ≤ 0 := by tauto
      refine ⟨⟨"Max size must be positive", ?_⟩, ?_⟩ <;>
        simp [createContest, createContestState, h1, h2, h3]

/-- Invalid createContest arguments: endTime equals startTime. -/
def badCreateArgs : CreateContestArgs :=
  { name := "c", description := "", startTime := 10, endTime := 10
    isPublic := true, maxSize := 5, addSelf := true }

/-- Witness for C7 at a concrete input: creating a contest with
endTime = startTime = 10 at now = 0 throws and leaves the user as is. -/
theorem createContest_validation_creates_nothing_witness :
    (∃ msg, createContest plainUser badCreateArgs 0 "contest_x" 9
        = Except.error msg) ∧
    createContestState plainUser badCreateArgs 0 "contest_x" 9
        = (none, plainUser) :=
  createContest_validation_creates_nothing plainUser badCreateArgs 0
    "contest_x" 9 (Or.inr (Or.inl (by decide)))

/-- The capacity invariant of a contest document: its participant array
never exceeds its maxSize. -/
def capacityInvariant (c : Contest) : Prop :=
  (c.users.length : ℚ) ≤ c.maxSize

/-- createContest arguments carrying the fractional capacity 0.5, which
the schema's plain-number maxSize admits, with addSelf set. -/
def fractionalArgs : CreateContestArgs :=
  { name := "fc", description := "", startTime := 10, endTime := 20
    isPublic := true, maxSize := 1/2, addSelf := true }

/-- The contest document createContest inserts for `fractionalArgs`; the
name and description keep the unevaluated trims the handler writes. -/
def fractionalContest : Contest :=
  { id := 51, contestId := "contest_fc", name := "fc".trim
    description := "".trim, creatorId := 2, startTime := 10, endTime := 20
    isPublic := true, maxSize := 1/2, problems := [], users := [2]
    updatedAt := 0 }

/-- `plainUser` after creating `fractionalContest` with addSelf. -/
def fractionalCreator : User :=
  { plainUser with
    createdContests := plainUser.createdContests ++ [51]
    participatedContests := plainUser.participatedContests ++ [51] }

/-- C9 counterexample: the schema types maxSize as a plain JS number and
no validator enforces integrality, so createContest accepts
maxSize = 0.5 (it only checks maxSize ≤ 0) with addSelf and inserts a
contest whose participant count 1 already exceeds maxSize — the claimed
invariant is not established by the code as written. -/
theorem contestCapacity_fractional_counterexample :
    createContest plainUser fractionalArgs 0 "contest_fc" 51
        = Except.ok (fractionalContest, fractionalCreator) ∧
    ¬ capacityInvariant fractionalContest := by
  constructor
  · unfold createContest
    rw [if_neg (by norm_num [fractionalArgs]),
      if_neg (by norm_num [fractionalArgs]),
      if_neg (by norm_num [fractionalArgs])]
    rfl
  · intro hc
    norm_num [capacityInvariant, fractionalContest] at hc

/-- C9 amended: contest capacity is an invariant whenever maxSize is
integral (the schema's v.number() enforces no integrality, and the
counterexample shows a fractional maxSize breaks the claim at creation;
joinContest likewise overshoots a fractional bound).  With integral
maxSize, createContest establishes users.length ≤ maxSize (maxSize ≤ 0
is rejected and at most one participant is seeded) and joinContest
preserves it (rejecting a join at users.length ≥ maxSize); updateContest
(rejecting a new maxSize below the current participant count) and
leaveContest (which only shrinks the participant array) preserve it for
arbitrary maxSize. -/
theorem contestCapacity_invariant_integral :
    (∀ user args now cidStr newDocId c u',
        (∃ m : ℤ, args.maxSize = (m : ℚ)) →
        createContest user args now cidStr newDocId = Except.ok (c, u') →
        capacityInvariant c) ∧
    (∀ user contest now c' u',
        (∃ m : ℤ, contest.maxSize = (m : ℚ)) →
        capacityInvariant contest →
        joinContest user contest now = Except.ok (c', u') →
        capacityInvariant c') ∧
    (∀ caller contest args now c', capacityInvariant contest →
        updateContest caller contest args now = Except.ok c' →
        capacityInvariant c') ∧
    (∀ user contest now c' u', capacityInvariant contest →
        leaveContest user contest now = Except.ok (c', u') →
        capacityInvariant c') := by
  refine ⟨?_, ?_, ?_, ?_⟩
  · intro user args now cidStr newDocId c u' hint h
    unfold createContest at h
    by_cases h1 : args.startTime < now
    · rw [if_pos h1] at h
      exact absurd h (by simp)
    · rw [if_neg h1] at h
      by_cases h2 : args.endTime ≤ args.startTime
      · rw [if_pos h2] at h
        exact absurd h (by simp)
      · rw [if_neg h2] at h
        by_cases h3 : args.maxSize ≤ 0
        · rw [if_pos h3] at h
          exact absurd h (by simp)
        · rw [if_neg h3] at h
          simp only [Except.ok.injEq, Prod.mk.injEq] at h
          obtain ⟨hc, -⟩ := h
          subst hc
          obtain ⟨m, hm⟩ := hint
          show ((if args.addSelf then [user.id] else []).length : ℚ) ≤ args.maxSize
          rw [hm] at h3 ⊢
          have h0 : (0 : ℤ) < m := by
            have hq : (0 : ℚ) < (m : ℚ) := lt_of_not_ge h3
            exact_mod_cast hq
          cases args.addSelf
          · simp only [Bool.false_eq_true, if_false, List.length_nil, Nat.cast_zero]
            exact_mod_cast h0.le
          · simp only [if_true, List.length_singleton, Nat.cast_one]
            have h1m : (1 : ℤ) ≤ m := h0
            exact_mod_cast h1m
  · intro user contest now c' u' hint hinv h
    unfold joinContest at h
    by_cases h1 : (!contest.isPublic) = true
    · rw [if_pos h1] at h
      exact absurd h (by simp)
    · rw [if_neg h1] at h
      by_cases h2 : contest.users.contains user.id = true
      · rw [if_pos h2] at h
        exact absurd h (by simp)
      · rw [if_neg h2] at h
        by_cases h3 : (contest.users.length : ℚ) ≥ contest.maxSize
        · rw [if_pos h3] at h
          exact absurd h (by simp)
        · rw [if_neg h3] at h
          by_cases h4 : now > contest.endTime
          · rw [if_pos h4] at h
            exact absurd h (by simp)
          · rw [if_neg h4] at h
            simp only [Except.ok.injEq, Prod.mk.injEq] at h
            obtain ⟨hc, -⟩ := h
            subst hc
            obtain ⟨m, hm⟩ := hint
            show ((contest.users ++ [user.id]).length : ℚ) ≤ contest.maxSize
            rw [hm] at h3 ⊢
            have hlt : (contest.users.length : ℤ) < m := by
              have hq : ((contest.users.length : ℕ) : ℚ) < (m : ℚ) :=
                lt_of_not_ge h3
              exact_mod_cast hq
            rw [List.length_append]
            simp only [List.length_singleton]
            have hsucc : ((contest.users.length + 1 : ℕ) : ℤ) ≤ m := by
              push_cast
              omega
            exact_mod_cast hsucc
  · intro caller contest args now c' hinv h
    unfold updateContest at h
    by_cases h1 : ¬ (contest.creatorId = caller.id ∨ caller.role = Role.ADMIN)
    · rw [if_pos h1] at h
      exact absurd h (by simp)
    · rw [if_neg h1] at h
      by_cases h2 : now ≥ contest.startTime ∧
          (args.name.isSome = true ∨ args.startTime.isSome = true ∨
            args.endTime.isSome = true ∨ args.isPublic.isSome = true ∨
            args.maxSize.isSome = true)
      · rw [if_pos h2] at h
        exact absurd h (by simp)
      · rw [if_neg h2] at h
        by_cases h3 : (args.startTime.isSome = true ∨ args.endTime.isSome = true) ∧
            ¬ now ≥ contest.startTime ∧
            args.startTime.getD contest.startTime < now
        · rw [if_pos h3] at h
          exact absurd h (by simp)
        · rw [if_neg h3] at h
          by_cases h4 : (args.startTime.isSome = true ∨ args.endTime.isSome = true) ∧
              args.endTime.getD contest.endTime ≤ args.startTime.getD contest.startTime
          · rw [if_pos h4] at h
            exact absurd h (by simp)
          · rw [if_neg h4] at h
            by_cases h5 : args.maxSize.isSome = true ∧ args.maxSize.getD 0 ≤ 0
            · rw [if_pos h5] at h
              exact absurd h (by simp)
            · rw [if_neg h5] at h
              by_cases h6 : args.maxSize.isSome = true ∧
                  args.maxSize.getD 0 < (contest.users.length : ℚ)
              · rw [if_pos h6] at h
                exact absurd h (by simp)
              · rw [if_neg h6] at h
                simp only [Except.ok.injEq] at h
                subst h
                show ((contest.users).length : ℚ) ≤ args.maxSize.getD contest.maxSize
                cases hms : args.maxSize with
                | none => exact hinv
                | some q =>
                  rw [hms] at h6
                  simp at h6
                  simpa using h6
  · intro user contest now c' u' hinv h
    unfold leaveContest at h
    by_cases h1 : (!contest.users.contains user.id) = true
    · rw [if_pos h1] at h
      exact absurd h (by simp)
    · rw [if_neg h1] at h
      by_cases h2 : now ≥ contest.startTime
      · rw [if_pos h2] at h
        exact absurd h (by simp)
      · rw [if_neg h2] at h
        simp only [Except.ok.injEq, Prod.mk.injEq] at h
        obtain ⟨hc, -⟩ := h
        subst hc
        have hlen : (List.filter (fun i => decide (i ≠ user.id)) contest.users).length
            ≤ contest.users.length := List.length_filter_le _ _
        exact le_trans (Nat.cast_le.mpr hlen) hinv

/-- A public contest with capacity 3 and one participant. -/
def openContest : Contest :=
  { id := 9, contestId := "contest_9", name := "o", description := ""
    creatorId := 1, startTime := 0, endTime := 100, isPublic := true
    maxSize := 3, problems := [], users := [1], updatedAt := 0 }

/-- `openContest` after `plainUser` joins at now = 50. -/
def openContestJoined : Contest :=
  { openContest with users := openContest.users ++ [plainUser.id], updatedAt := 50 }

/-- `plainUser` after joining `openContest`. -/
def plainUserJoined : User :=
  { plainUser with
    participatedContests := plainUser.participatedContests ++ [openContest.id] }

/-- Witness for the amended C9 theorem at a concrete input: joining
`openContest` (integral capacity 3, one seat taken) succeeds and the
joined contest still satisfies the capacity invariant. -/
theorem contestCapacity_invariant_integral_witness :
    capacityInvariant openContestJoined :=
  contestCapacity_invariant_integral.2.1 plainUser openContest 50
    openContestJoined plainUserJoined ⟨3, by norm_num [openContest]⟩
    (show ((1 : ℕ) : ℚ) ≤ 3 by decide) rfl

/-! ## deleteContest (contests.ts lines 337-400)

The handler looks the contest up by contestId, checks creator-or-admin,
then checks `contestSubmissions` by the by_contest_id index and throws
"Cannot delete contest with existing submissions" if any row exists —
before any of the deletes and patches that follow. -/

/-- The slice of the store deleteContest reads and writes. -/
structure DB where
  contests : List Contest
  contestProblems : List ContestProblem
  contestSubmissions : List ContestSubmission
  users : List User
deriving DecidableEq

/-- Lookup of a contest by its string key, as `withIndex("by_contest_id")
... .unique()` resolves it. -/
def findContest (db : DB) (cid : String) : Option Contest :=
  db.contests.find? fun c => c.contestId = cid

/-- Drop the links to a deleted contest from a user document, as the
per-participant patch does. -/
def removeContestLinks (contestDocId : ℕ) (u : User) : User :=
  { u with
    createdContests := u.createdContests.filter (fun i => i ≠ contestDocId)
    participatedContests :=
      u.participatedContests.filter (fun i => i ≠ contestDocId) }

/-- deleteContest: `caller` is the principal requireAuth supplies. -/
def deleteContest (caller : User) (cid : String) (db : DB) :
    Except String DB :=
  match findContest db cid with
  | none => Except.error "Contest not found"
  | some contest =>
    if ¬ (contest.creatorId = caller.id ∨ caller.role = Role.ADMIN) then
      Except.error "Only contest creator or admin can delete contest"
    else if (db.contestSubmissions.find? fun cs => cs.contestId = contest.id).isSome then
      Except.error "Cannot delete contest with existing submissions"
    else
      Except.ok
        { db with
          contests := db.contests.filter (fun c => c.id ≠ contest.id)
          contestProblems :=
            db.contestProblems.filter (fun cp => cp.contestId ≠ contest.id)
          users := db.users.map (fun u =>
            if u.id ∈ contest.users then removeContestLinks contest.id u else u) }

/-- Post-state of a deleteContest attempt (rollback on error). -/
def deleteContestState (caller : User) (cid : String) (db : DB) : DB :=
  match deleteContest caller cid db with
  | Except.ok db' => db'
  | Except.error _ => db

/-- C6: when the targeted contest has at least one ContestSubmission row,
deleteContest throws and deletes nothing: the contest, its
contestProblems rows and all contestSubmissions rows are unchanged.  An
authorized caller (creator or ADMIN) gets exactly the
"Cannot delete contest with existing submissions" error. -/
theorem deleteContest_preserves_submission_history (caller : User)
    (cid : String) (db : DB) (contest : Contest)
    (hfind : findContest db cid = some contest)
    (hsub : ∃ cs ∈ db.contestSubmissions, cs.contestId = contest.id) :
    (∃ msg, deleteContest caller cid db = Except.error msg) ∧
    deleteContestState caller cid db = db ∧
    ((contest.creatorId = caller.id ∨ caller.role = Role.ADMIN) →
      deleteContest caller cid db =
        Except.error "Cannot delete contest with existing submissions") := by
  obtain ⟨cs, hmem, hcs⟩ := hsub
  have hfound : (db.contestSubmissions.find? fun x => decide (x.contestId = contest.id)).isSome := by
    rw [List.find?_isSome]
    exact ⟨cs, hmem, by simp [hcs]⟩
  have heq : deleteContest caller cid db =
      (if ¬ (contest.creatorId = caller.id ∨ caller.role = Role.ADMIN) then
        Except.error "Only contest creator or admin can delete contest"
      else if (db.contestSubmissions.find? fun x => x.contestId = contest.id).isSome then
        Except.error "Cannot delete contest with existing submissions"
      else
        Except.ok
          { db with
            contests := db.contests.filter (fun c => c.id ≠ contest.id)
            contestProblems :=
              db.contestProblems.filter (fun cp => cp.contestId ≠ contest.id)
            users := db.users.map (fun u =>
              if u.id ∈ contest.users then removeContestLinks contest.id u else u) }) := by
    unfold deleteContest
    rw [hfind]
  unfold deleteContestState
  rw [heq]
  by_cases hauth : ¬ (contest.creatorId = caller.id ∨ caller.role = Role.ADMIN)
  · rw [if_pos hauth]
    exact ⟨⟨"Only contest creator or admin can delete contest", rfl⟩, rfl,
      fun hc => absurd hc hauth⟩
  · rw [if_neg hauth, if_pos hfound]
    exact ⟨⟨"Cannot delete contest with existing submissions", rfl⟩, rfl,
      fun _ => rfl⟩

/-- A submission row recorded for `startedContest`. -/
def recordedSubmission : ContestSubmission :=
  { id := 31, contestId := 7 }

/-- A store holding `startedContest`, a contestProblems row of it, and
one contestSubmissions row. -/
def dbWithSubmission : DB :=
  { contests := [startedContest]
    contestProblems := [{ id := 41, contestId := 7 }]
    contestSubmissions := [recordedSubmission]
    users := [memberUser] }

/-- The creator of `startedContest` (user document id 1). -/
def creatorUser : User :=
  { id := 1, userId := "user_1", email := "e", name := "n", username := "u"
    isVerified := false, role := Role.USER, createdProblems := []
    solvedProblems := [], createdContests := [7], participatedContests := [] }

/-- Witness for C6 at a concrete input: the creator attempts to delete
`startedContest`, which has a recorded submission; the call errors and
the store survives intact. -/
theorem deleteContest_preserves_submission_history_witness :
    (∃ msg, deleteContest creatorUser "contest_7" dbWithSubmission
        = Except.error msg) ∧
    deleteContestState creatorUser "contest_7" dbWithSubmission
        = dbWithSubmission ∧
    ((startedContest.creatorId = creatorUser.id ∨ creatorUser.role = Role.ADMIN) →
      deleteContest creatorUser "contest_7" dbWithSubmission =
        Except.error "Cannot delete contest with existing submissions") :=
  deleteContest_preserves_submission_history creatorUser "contest_7"
    dbWithSubmission startedContest rfl
    ⟨recordedSubmission, by simp [dbWithSubmission], rfl⟩

/-! ## syncUser (users.ts lines 5-37)

The handler queries the users table for an existing document with the
given userId and inserts a fresh USER document only when none exists; an
existing document is left untouched (no patch on that path). -/

/-- Arguments of syncUser. -/
structure SyncUserArgs where
  userId : String
  email : String
  name : String
deriving DecidableEq

/-- syncUser over the users table; `rand` stands for the generated
6-digit username suffix and `newDocId` for the id of the insert. -/
def syncUser (db : List User) (args : SyncUserArgs) (rand : ℕ)
    (newDocId : ℕ) : List User :=
  match db.find? (fun u => u.userId = args.userId) with
  | some _ => db
  | none =>
    db ++ [{ id := newDocId, userId := args.userId, email := args.email
             name := args.name, username := args.name ++ "_" ++ toString rand
             isVerified := false, role := Role.USER, createdProblems := []
             solvedProblems := [], createdContests := []
             participatedContests := [] }]

/-- How many user documents carry a given userId. -/
def userIdCount (db : List User) (uid : String) : ℕ :=
  (db.filter fun u => u.userId = uid).length

/-- C10: syncUser is idempotent on user existence.  When a document with
the given userId already exists, the call inserts nothing and modifies
no document (the table is returned unchanged); in general a call never
raises the number of documents per userId above max(1, previous count),
so syncUser alone never creates a second document for a userId. -/
theorem syncUser_idempotent (db : List User) (args : SyncUserArgs)
    (rand newDocId : ℕ)
    (h : ∃ u ∈ db, u.userId = args.userId) :
    syncUser db args rand newDocId = db ∧
    (∀ db' rand' newDocId',
      userIdCount (syncUser db' args rand' newDocId') args.userId
        ≤ max 1 (userIdCount db' args.userId)) := by
  constructor
  · obtain ⟨u, hmem, hu⟩ := h
    have hfound : (db.find? fun x => decide (x.userId = args.userId)).isSome := by
      rw [List.find?_isSome]
      exact ⟨u, hmem, by simp [hu]⟩
    unfold syncUser
    obtain ⟨v, hv⟩ := Option.isSome_iff_exists.mp hfound
    rw [hv]
  · intro db' rand' newDocId'
    unfold syncUser
    cases hfind : db'.find? (fun u => decide (u.userId = args.userId)) with
    | some v => exact le_max_of_le_right le_rfl
    | none =>
      have hnone : ∀ u ∈ db', u.userId ≠ args.userId := by
        intro u hmem
        have := List.find?_eq_none.mp hfind u hmem
        simpa using this
      have hzero : userIdCount db' args.userId = 0 := by
        unfold userIdCount
        rw [List.length_eq_zero]
        rw [List.filter_eq_nil_iff]
        intro u hmem
        simpa using hnone u hmem
      unfold userIdCount
      rw [List.filter_append]
      simp only [List.filter_cons, List.filter_nil]
      have : (List.filter (fun u => decide (u.userId = args.userId)) db').length = 0 := hzero
      rw [List.length_append, this]
      simp

/-- Witness for C10 at a concrete input: syncing `plainUser`'s userId a
second time leaves the one-element table unchanged. -/
theorem syncUser_idempotent_witness :
    syncUser [plainUser]
        { userId := "user_2", email := "e2", name := "n2" } 123456 99
      = [plainUser] :=
  (syncUser_idempotent [plainUser]
      { userId := "user_2", email := "e2", name := "n2" } 123456 99
      ⟨plainUser, by simp, rfl⟩).1

/-! ## getProblemStats (problems file, lines 479-515)

With a stats row present, the handler computes
`acceptanceRate = totalSubmissions > 0 ? (accepted / total) * 100 : 0`
and returns `Math.round(acceptanceRate * 100) / 100`.  The counters are
whole numbers; the arithmetic is modelled over the rationals, with
`Math.round` as round-half-up (its behavior on the nonnegative values
that occur here). -/

/-- Math.round: round half toward positive infinity. -/
def jsRound (q : ℚ) : ℤ := ⌊q + 1 / 2⌋

/-- The guarded division of getProblemStats (line 506). -/
def rawAcceptanceRate (totalSubmissions acceptedSubmissions : ℕ) : ℚ :=
  if 0 < totalSubmissions then
    ((acceptedSubmissions : ℚ) / (totalSubmissions : ℚ)) * 100
  else 0

/-- The acceptanceRate field getProblemStats returns (line 511):
`Math.round(acceptanceRate * 100) / 100`. -/
def statsAcceptanceRate (totalSubmissions acceptedSubmissions : ℕ) : ℚ :=
  (jsRound (rawAcceptanceRate totalSubmissions acceptedSubmissions * 100) : ℚ) / 100

/-- Rounding to two decimal places, as the claim words it; to be compared
with what the code computes. -/
def roundTwoDecimals (q : ℚ) : ℚ := (⌊q * 100 + 1 / 2⌋ : ℚ) / 100

/-- C8: with acceptedSubmissions ≤ totalSubmissions, the returned
acceptanceRate is 0 when totalSubmissions = 0 (the ternary guards the
division), equals (accepted/total)·100 rounded to two decimal places
otherwise, and always lies within [0, 100]. -/
theorem getProblemStats_acceptanceRate (total accepted : ℕ)
    (h : accepted ≤ total) :
    (total = 0 → statsAcceptanceRate total accepted = 0) ∧
    (0 < total → statsAcceptanceRate total accepted
        = roundTwoDecimals (((accepted : ℚ) / (total : ℚ)) * 100)) ∧
    0 ≤ statsAcceptanceRate total accepted ∧
    statsAcceptanceRate total accepted ≤ 100 := by
  refine ⟨?_, ?_, ?_, ?_⟩
  · intro h0
    subst h0
    norm_num [statsAcceptanceRate, rawAcceptanceRate, jsRound]
  · intro hpos
    unfold statsAcceptanceRate rawAcceptanceRate roundTwoDecimals jsRound
    rw [if_pos hpos]
  · unfold statsAcceptanceRate jsRound
    have hnn : 0 ≤ rawAcceptanceRate total accepted := by
      unfold rawAcceptanceRate
      split_ifs
      · positivity
      · exact le_rfl
    have hfl : (0 : ℤ) ≤ ⌊rawAcceptanceRate total accepted * 100 + 1 / 2⌋ := by
      apply Int.floor_nonneg.mpr
      linarith
    have hq : (0 : ℚ) ≤ (⌊rawAcceptanceRate total accepted * 100 + 1 / 2⌋ : ℚ) := by
      exact_mod_cast hfl
    linarith
  · unfold statsAcceptanceRate jsRound
    have hle : rawAcceptanceRate total accepted ≤ 100 := by
      unfold rawAcceptanceRate
      split_ifs with hpos
      · have htq : (0 : ℚ) < (total : ℚ) := by exact_mod_cast hpos
        have hdiv : (accepted : ℚ) / (total : ℚ) ≤ 1 := by
          rw [div_le_one htq]
          exact_mod_cast h
        nlinarith
      · norm_num
    have hfl : ⌊rawAcceptanceRate total accepted * 100 + 1 / 2⌋ ≤ 10000 := by
      have : rawAcceptanceRate total accepted * 100 + 1 / 2 ≤ 10000 + 1 / 2 := by
        nlinarith
      calc ⌊rawAcceptanceRate total accepted * 100 + 1 / 2⌋
          ≤ ⌊(10000 : ℚ) + 1 / 2⌋ := Int.floor_le_floor this
        _ = 10000 := by norm_num
    have : ((⌊rawAcceptanceRate total accepted * 100 + 1 / 2⌋ : ℤ) : ℚ) ≤ 10000 := by
      exact_mod_cast hfl
    linarith

/-- Witness for C8 at a concrete input: 1 accepted out of 3 submissions
gives an acceptanceRate of 33.33 (10000/3 rounded down at the third
decimal), which lies in [0, 100]. -/
theorem getProblemStats_acceptanceRate_witness :
    0 ≤ statsAcceptanceRate 3 1 ∧ statsAcceptanceRate 3 1 ≤ 100 :=
  ⟨(getProblemStats_acceptanceRate 3 1 (by decide)).2.2.1,
   (getProblemStats_acceptanceRate 3 1 (by decide)).2.2.2⟩

/-! ## VerdictAggregator -/

/-- Submission verdicts, from the schema's verdict union. -/
inductive Verdict where
  | ACCEPTED
  | WRONG_ANSWER
  | TIME_LIMIT_EXCEEDED
  | MEMORY_LIMIT_EXCEEDED
  | COMPILATION_ERROR
  | RUNTIME_ERROR
deriving DecidableEq

/-- Modelled from the spec: the per-testcase outcome classification of
VerdictAggregator step 2 (PASS, or a specific failure), plus the
compile-time failure of step 1.  The aggregator itself is not under
src/; only the schema's Execution and verdict declarations are. -/
inductive Outcome where
  | pass
  | wrongAnswer
  | timeLimitExceeded
  | memoryLimitExceeded
  | runtimeError
  | compileError
deriving DecidableEq

/-- The verdict label a single outcome contributes. -/
def Outcome.verdictLabel : Outcome → Verdict
  | .pass => .ACCEPTED
  | .wrongAnswer => .WRONG_ANSWER
  | .timeLimitExceeded => .TIME_LIMIT_EXCEEDED
  | .memoryLimitExceeded => .MEMORY_LIMIT_EXCEEDED
  | .runtimeError => .RUNTIME_ERROR
  | .compileError => .COMPILATION_ERROR

/-- Modelled from the spec: the final-verdict computation of
VerdictAggregator (steps 1, 2 and 4 of the algorithm): a compile failure
dominates; otherwise the verdict is ACCEPTED when every Execution passes
and the first failing Execution's label in testcase order otherwise. -/
def aggregateVerdict (outcomes : List Outcome) : Verdict :=
  if outcomes.any (fun o => o = Outcome.compileError) then
    Verdict.COMPILATION_ERROR
  else
    match outcomes.find? (fun o => o ≠ Outcome.pass) with
    | some o => o.verdictLabel
    | none => Verdict.ACCEPTED

/-- The first failure in testcase order is what find? returns when every
earlier outcome passes. -/
theorem find?_first_failing (pre : List Outcome) (o : Outcome)
    (rest : List Outcome) (hpre : ∀ p ∈ pre, p = Outcome.pass)
    (ho : o ≠ Outcome.pass) :
    (pre ++ o :: rest).find? (fun x => decide (x ≠ Outcome.pass)) = some o := by
  induction pre with
  | nil => simp [List.find?_cons, ho]
  | cons a t ih =>
    have ha : a = Outcome.pass := hpre a (List.mem_cons_self a t)
    have ht : ∀ p ∈ t, p = Outcome.pass := fun p hp => hpre p (List.mem_cons_of_mem a hp)
    rw [List.cons_append, List.find?_cons]
    rw [ha]
    simpa using ih ht

/-- A failing outcome never carries the ACCEPTED label. -/
theorem verdictLabel_ne_accepted (o : Outcome) (ho : o ≠ Outcome.pass) :
    o.verdictLabel ≠ Verdict.ACCEPTED := by
  cases o <;> simp [Outcome.verdictLabel] at ho ⊢

/-- C4: for a terminal Execution set with no compile-time failure, the
aggregated verdict is ACCEPTED exactly when every Execution passes, and
otherwise it is the verdict label of the first failing Execution in
testcase order (first-failure-wins). -/
theorem aggregateVerdict_first_failure_wins (outcomes : List Outcome)
    (hnc : Outcome.compileError ∉ outcomes) :
    (aggregateVerdict outcomes = Verdict.ACCEPTED ↔
      ∀ o ∈ outcomes, o = Outcome.pass) ∧
    (∀ pre o rest, outcomes = pre ++ o :: rest →
      (∀ p ∈ pre, p = Outcome.pass) → o ≠ Outcome.pass →
      aggregateVerdict outcomes = o.verdictLabel) := by
  have hany : outcomes.any (fun o => decide (o = Outcome.compileError)) = false := by
    rw [Bool.eq_false_iff]
    intro hc
    rw [List.any_eq_true] at hc
    obtain ⟨x, hx, hxc⟩ := hc
    have hxe : x = Outcome.compileError := by simpa using hxc
    exact hnc (hxe ▸ hx)
  constructor
  · unfold aggregateVerdict
    rw [hany]
    simp only [Bool.false_eq_true, if_false]
    cases hfind : outcomes.find? (fun o => decide (o ≠ Outcome.pass)) with
    | none =>
      simp only [true_iff]
      intro o hmem
      have := List.find?_eq_none.mp hfind o hmem
      simpa using this
    | some o =>
      have hmem := List.mem_of_find?_eq_some hfind
      have hne : o ≠ Outcome.pass := by
        have := List.find?_some hfind
        simpa using this
      constructor
      · intro hlab
        exact absurd hlab (verdictLabel_ne_accepted o hne)
      · intro hall
        exact absurd (hall o hmem) hne
  · intro pre o rest hsplit hpre ho
    unfold aggregateVerdict
    rw [hany]
    simp only [Bool.false_eq_true, if_false]
    rw [hsplit, find?_first_failing pre o rest hpre ho]

/-- Witness for C4 at the spec's own example: outcomes
[PASS, WRONG_ANSWER, TIME_LIMIT_EXCEEDED] in testcase order aggregate to
WRONG_ANSWER (first failure wins), not TIME_LIMIT_EXCEEDED. -/
theorem aggregateVerdict_first_failure_wins_witness :
    aggregateVerdict
        [Outcome.pass, Outcome.wrongAnswer, Outcome.timeLimitExceeded]
      = Verdict.WRONG_ANSWER :=
  (aggregateVerdict_first_failure_wins
      [Outcome.pass, Outcome.wrongAnswer, Outcome.timeLimitExceeded]
      (by decide)).2
    [Outcome.pass] Outcome.wrongAnswer [Outcome.timeLimitExceeded]
    rfl (by decide) (by decide)

end HackCode
